import Mathlib

/-!
Verification of the Vulnhalla triage pipeline and its web frontend.

The first half of this file embeds the frontend's data model and the pure
state-transition logic of `src/frontend/src` (types, `fetchApi`, the Zustand
projects store, and the vulnerabilities page filter).  The second half models
the adjudication pipeline described by the design document (ingestor,
strategy registry, context extractor, fingerprint cache, classifier, budget
governor, scheduler and aggregator); that pipeline is not part of the checked
sources, so its definitions are modelled from the specification text.
-/

namespace Frontend

/-- List association lookup, the shape used for every keyed map in this
development. -/
def alookup {α β : Type} [DecidableEq α] : List (α × β) → α → Option β
  | [], _ => none
  | (k, v) :: rest, a => if k = a then some v else alookup rest a

/-- Character-list version of JavaScript `String.prototype.startsWith`:
`leadsWith needle hay` holds when `needle` is a leading segment of `hay`. -/
def leadsWith : List Char → List Char → Bool
  | [], _ => true
  | _ :: _, [] => false
  | a :: as, b :: bs => a = b && leadsWith as bs

/-- Character-list version of JavaScript `String.prototype.includes`:
`occursIn needle hay` holds when `needle` occurs contiguously in `hay`. -/
def occursIn : List Char → List Char → Bool
  | needle, [] => needle.isEmpty
  | needle, b :: rest => leadsWith needle (b :: rest) || occursIn needle rest

/-- JavaScript `string.includes(needle)` on `hay`. -/
def strIncludes (hay needle : String) : Bool :=
  occursIn needle.toList hay.toList

/-- JavaScript `string.toLowerCase()` (ASCII-faithful model). -/
def jsToLower (s : String) : String :=
  String.mk (s.toList.map Char.toLower)

/-- `ProgrammingLanguage` union from `src/frontend/src/types/index.ts`. -/
inductive ProgrammingLanguage
  | java
  | cpp
  | csharp
  | javascript
  | python
  | go
  | ruby
  | swift
deriving DecidableEq

/-- `LANGUAGE_LABELS` from `src/frontend/src/types/index.ts`: a total record
over the `ProgrammingLanguage` union, with no failure path. -/
def LANGUAGE_LABELS : ProgrammingLanguage → String
  | .java => "Java"
  | .cpp => "C/C++"
  | .csharp => "C#"
  | .javascript => "JavaScript/TypeScript"
  | .python => "Python"
  | .go => "Go"
  | .ruby => "Ruby"
  | .swift => "Swift"

/-- `ProjectStatus` union from `src/frontend/src/types/index.ts`. -/
inductive ProjectStatus
  | pending
  | ready
  | analyzing
  | error
  | completed
deriving DecidableEq

/-- `Severity` union from `src/frontend/src/types/index.ts`. -/
inductive Severity
  | critical
  | high
  | medium
  | low
  | info
deriving DecidableEq

/-- The string value carried by a `Severity` member at runtime. -/
def severityValue : Severity → String
  | .critical => "critical"
  | .high => "high"
  | .medium => "medium"
  | .low => "low"
  | .info => "info"

/-- `Confidence` union from `src/frontend/src/types/index.ts`. -/
inductive Confidence
  | high
  | medium
  | low
deriving DecidableEq

/-- `VulnerabilityStatus` union from `src/frontend/src/types/index.ts`. -/
inductive VulnerabilityStatus
  | new
  | confirmed
  | false_positive
  | fixed
  | ignored
deriving DecidableEq

/-- The string value carried by a `VulnerabilityStatus` member at runtime. -/
def statusValue : VulnerabilityStatus → String
  | .new => "new"
  | .confirmed => "confirmed"
  | .false_positive => "false_positive"
  | .fixed => "fixed"
  | .ignored => "ignored"

/-- `DataFlowStep` from `src/frontend/src/types/index.ts`. -/
structure DataFlowStep where
  stepNumber : Nat
  filePath : String
  lineNumber : Nat
  codeSnippet : String
  description : String
deriving DecidableEq

/-- `LlmAnalysis` from `src/frontend/src/types/index.ts` — the only
verdict-like type in the checked sources; its judgment field is the boolean
`isVulnerability`, not a three-valued status code. -/
structure LlmAnalysis where
  isVulnerability : Bool
  confidence : ℚ
  reasoning : String
  suggestion : String
  cwe : Option String
  owasp : Option String
deriving DecidableEq

/-- `Vulnerability` from `src/frontend/src/types/index.ts`. -/
structure Vulnerability where
  id : String
  projectId : String
  projectName : String
  ruleId : String
  ruleName : String
  severity : Severity
  confidence : Confidence
  status : VulnerabilityStatus
  filePath : String
  startLine : Nat
  endLine : Nat
  startColumn : Nat
  endColumn : Nat
  codeSnippet : String
  message : String
  description : String
  dataFlow : List DataFlowStep
  llmAnalysis : Option LlmAnalysis
  detectedAt : String
  updatedAt : String
deriving DecidableEq

/-- `QueryType` union from `src/frontend/src/types/index.ts`. -/
inductive QueryType
  | security_extended
  | security_and_quality
  | community
  | custom
deriving DecidableEq

/-- Scan depth union from `src/frontend/src/types/index.ts`. -/
inductive ScanDepth
  | shallow
  | normal
  | deep
deriving DecidableEq

/-- `ScanConfig` from `src/frontend/src/types/index.ts`. -/
structure ScanConfig where
  language : ProgrammingLanguage
  sourceRoot : String
  overwriteDatabase : Bool
  databasePath : Option String
  scanDepth : ScanDepth
  selectedPackages : List String
  selectedQueries : List String
  queryType : QueryType
  threads : Nat
  includePaths : List String
  excludePaths : List String
  ramBudget : Nat
  timeout : Nat
  enableLlmAnalysis : Bool
  llmModel : Option String
  excludeFalsePositives : Bool
deriving DecidableEq

/-- `Project` from `src/frontend/src/types/index.ts`. -/
structure Project where
  id : String
  name : String
  language : ProgrammingLanguage
  path : String
  dbPath : String
  status : ProjectStatus
  lastAnalyzed : String
  issueCount : Nat
  createdAt : String
  updatedAt : String
  scanConfig : Option ScanConfig
deriving DecidableEq

/-- `ApiResponse<T>` from `src/frontend/src/types/index.ts` (the `message`
field is unused by `fetchApi` and omitted). -/
structure ApiResponse (α : Type) where
  success : Bool
  data : Option α
  error : Option String
deriving DecidableEq

/-- Everything the environment can do to one `fetch`-and-parse round trip in
`fetchApi` (`src/frontend/src/services/api.ts`): the awaited `fetch` or
`response.json()` throws an `Error` carrying a message, throws a non-`Error`
value, or yields a parsed response with its `ok` flag, HTTP status, the
body's `message` field (absent or a string, possibly empty) and the body
itself. -/
inductive FetchOutcome (α : Type)
  | throwErr (msg : String)
  | throwOther
  | respond (ok : Bool) (status : Nat) (message : Option String) (body : α)
deriving DecidableEq

/-- The string built by the template literal in `fetchApi`'s non-OK branch. -/
def httpErrorText (status : Nat) : String :=
  "HTTP Error: " ++ toString status

/-- JavaScript `data.message || fallback` where `data.message` is absent or a
string: the empty string is falsy. -/
def jsOrElse (message : Option String) (fallback : String) : String :=
  match message with
  | some m => if m = "" then fallback else m
  | none => fallback

/-- `fetchApi` from `src/frontend/src/services/api.ts`, as a function of the
round trip's outcome.  The `try`/`catch` makes it total: a thrown value is
turned into a `success: false` response, a non-OK response into
`success: false` with `data.message || "HTTP Error: <status>"`, and an OK
response into `success: true` carrying the parsed body. -/
def fetchApi {α : Type} (o : FetchOutcome α) : ApiResponse α :=
  match o with
  | .throwErr msg => { success := false, data := none, error := some msg }
  | .throwOther => { success := false, data := none, error := some "Network error" }
  | .respond ok status message body =>
    if ok then
      { success := true, data := some body, error := none }
    else
      { success := false, data := none, error := some (jsOrElse message (httpErrorText status)) }

/-- The slice of the Zustand projects store state
(`src/frontend/src/store/index.ts`) touched by `deleteProject`. -/
structure ProjectsState where
  projects : List Project
  currentProject : Option Project
  isLoading : Bool
  error : Option String
deriving DecidableEq

/-- The state update applied by `deleteProject(id)` in
`src/frontend/src/store/index.ts` when `api.projects.delete(id)` reports
success: `projects.filter(p => p.id !== id)`, and
`currentProject?.id === id ? null : currentProject`. -/
def deleteProjectSuccess (state : ProjectsState) (id : String) : ProjectsState :=
  { state with
    projects := state.projects.filter (fun p => p.id ≠ id)
    currentProject :=
      match state.currentProject with
      | some p => if p.id = id then none else some p
      | none => none
    isLoading := false }

/-- `matchesSearch` of the vulnerabilities page filter (`src/unnamed/part_002`):
a case-insensitive substring match of the search text against `ruleName`,
`filePath` or `message`. -/
def matchesSearch (searchText : String) (vuln : Vulnerability) : Bool :=
  strIncludes (jsToLower vuln.ruleName) (jsToLower searchText) ||
  strIncludes (jsToLower vuln.filePath) (jsToLower searchText) ||
  strIncludes (jsToLower vuln.message) (jsToLower searchText)

/-- `filteredVulnerabilities` from the vulnerabilities page
(`src/unnamed/part_002`): keep a vulnerability when the search text matches
and each of the severity, status and project selectors is `'all'` or equals
the corresponding field's string value. -/
def filteredVulnerabilities (vulnerabilities : List Vulnerability)
    (searchText selectedSeverity selectedStatus selectedProject : String) :
    List Vulnerability :=
  vulnerabilities.filter (fun vuln =>
    matchesSearch searchText vuln &&
    (selectedSeverity == "all" || severityValue vuln.severity == selectedSeverity) &&
    (selectedStatus == "all" || statusValue vuln.status == selectedStatus) &&
    (selectedProject == "all" || vuln.projectId == selectedProject))

/-- The filter predicate exactly as the claim words it: a case-insensitive
substring match of the search text against `ruleName`, `filePath`, or
`message`, and severity, status and project each equal to the selection or
that selection being `'all'`. -/
def ClaimMatches (searchText selectedSeverity selectedStatus selectedProject : String)
    (vuln : Vulnerability) : Prop :=
  (occursIn (jsToLower searchText).toList (jsToLower vuln.ruleName).toList = true ∨
   occursIn (jsToLower searchText).toList (jsToLower vuln.filePath).toList = true ∨
   occursIn (jsToLower searchText).toList (jsToLower vuln.message).toList = true) ∧
  (selectedSeverity = "all" ∨ severityValue vuln.severity = selectedSeverity) ∧
  (selectedStatus = "all" ∨ statusValue vuln.status = selectedStatus) ∧
  (selectedProject = "all" ∨ vuln.projectId = selectedProject)

instance (s sv st pj : String) (v : Vulnerability) : Decidable (ClaimMatches s sv st pj v) := by
  unfold ClaimMatches
  infer_instance

/-- A concrete project record used by the store witnesses. -/
def sampleProject : Project :=
  { id := "p1"
    name := "fastbee"
    language := .java
    path := "/srv/fastbee"
    dbPath := "/srv/db"
    status := .ready
    lastAnalyzed := "2026-02-15"
    issueCount := 4
    createdAt := "2026-02-01"
    updatedAt := "2026-02-15"
    scanConfig := none }

end Frontend

namespace Pipeline

/-- Modelled from the spec: the triage pipeline (§2–§4.8) is absent from the
checked sources — only its design document and the frontend that would
render its output exist — so the pipeline's data model is reconstructed from
the specification text.  `StatusCode` is the three-valued status of a
Verdict (§3). -/
inductive StatusCode
  | CONFIRMED
  | FALSE_POSITIVE
  | NEEDS_MORE_INFO
deriving DecidableEq

/-- Modelled from the spec: a `Verdict` (§3) — status code, confidence in
the closed interval 0–1, reasoning, suggestion and an optional CWE tag. -/
structure Verdict where
  statusCode : StatusCode
  confidence : ℚ
  reasoning : String
  suggestion : String
  cwe : Option String
deriving DecidableEq

/-- Modelled from the spec: one node of a finding's source→…→sink path
(§3). -/
structure PathNode where
  file : String
  line : Nat
  snippet : String
deriving DecidableEq

/-- Modelled from the spec: a `Finding` (§3) — one analyzer result,
immutable once ingested. -/
structure Finding where
  id : String
  language : String
  ruleId : String
  severity : String
  filePath : String
  startLine : Nat
  endLine : Nat
  pathNodes : List PathNode
  message : String
deriving DecidableEq

/-- Modelled from the spec: a `LanguageStrategy` (§3, §4.2) — the
per-language policy resolved through the registry. -/
structure LanguageStrategy where
  version : Nat
  maxLines : Nat
  maxTokens : Nat
  promptTemplate : String

/-- Modelled from the spec: the strategy registry's backing configuration
set (§4.2), immutable after startup. -/
abbrev Registry := List (String × LanguageStrategy)

/-- Modelled from the spec: `UnsupportedLanguageError` (§4.2, §7). -/
inductive UnsupportedLanguageError
  | unsupported (language : String)
deriving DecidableEq

/-- Modelled from the spec: `resolve(language)` (§4.2) — fails with
`UnsupportedLanguageError` when no strategy is registered for the
language. -/
def resolve (registry : Registry) (language : String) :
    Except UnsupportedLanguageError LanguageStrategy :=
  match Frontend.alookup registry language with
  | some strategy => .ok strategy
  | none => .error (.unsupported language)

/-- Modelled from the spec: the read-only code files (§6), a path → lines
mapping. -/
abbrev FileSystem := List (String × List String)

/-- Modelled from the spec: `ExtractionError` (§4.3, §7) — missing file or
out-of-range line index. -/
inductive ExtractionError
  | fileMissing (path : String)
  | lineOutOfRange (path : String)
deriving DecidableEq

/-- Modelled from the spec: a `CodeContext` (§3) — the extracted snippet,
its token count and a truncation flag. -/
structure CodeContext where
  snippet : String
  tokenCount : Nat
  truncated : Bool
deriving DecidableEq

/-- Modelled from the spec: the fast token-count approximation used by the
extractor (§4.3), not exact tokenizer parity. -/
def estimateTokens (s : String) : Nat :=
  s.length / 4 + 1

/-- The 1-based window `[lo, hi]` of a line list. -/
def windowLines (lines : List String) (lo hi : Nat) : List String :=
  (lines.drop (lo - 1)).take (hi + 1 - lo)

/-- Modelled from the spec: middle-outward elision (§4.3) — when a window
exceeds its budget keep its head (source side) and tail (sink side) and
elide the middle with a marker, reporting whether anything was dropped. -/
def elideMiddle (ls : List String) (maxKeep : Nat) : List String × Bool :=
  if ls.length ≤ maxKeep then (ls, false)
  else
    let keepHead := (maxKeep + 1) / 2
    let keepTail := maxKeep - keepHead
    (ls.take keepHead ++ ["... elided ..."] ++ ls.drop (ls.length - keepTail), true)

/-- Character-level middle truncation applied when the snippet still exceeds
the token ceiling (§4.3); the first and last lines (source and sink) are on
the kept ends. -/
def truncateMiddleChars (s : String) (maxChars : Nat) : String :=
  if s.length ≤ maxChars then s
  else String.mk (s.toList.take ((maxChars + 1) / 2) ++ s.toList.drop (s.length - maxChars / 2))

/-- Modelled from the spec: `extract(finding, strategy)` (§4.3) — open the
finding's file, fail when it is missing or any involved line index is
out of range, take the window covering every path node in that file
(bounded by the start/end lines), elide the middle beyond
`strategy.maxLines`, and truncate further when the text exceeds
`strategy.maxTokens`, setting the `truncated` flag. -/
def extract (fs : FileSystem) (finding : Finding) (strategy : LanguageStrategy) :
    Except ExtractionError CodeContext :=
  match Frontend.alookup fs finding.filePath with
  | none => .error (.fileMissing finding.filePath)
  | some lines =>
    let nodeLines := finding.startLine :: finding.endLine ::
      (finding.pathNodes.filter (fun n => n.file = finding.filePath)).map (fun n => n.line)
    if nodeLines.any (fun ln => ln = 0 || lines.length < ln) then
      .error (.lineOutOfRange finding.filePath)
    else
      let lo := nodeLines.foldl min finding.startLine
      let hi := nodeLines.foldl max finding.endLine
      let window := windowLines lines lo hi
      let kept := elideMiddle window strategy.maxLines
      let text := String.intercalate "\n" kept.1
      if strategy.maxTokens < estimateTokens text then
        let cut := truncateMiddleChars text (strategy.maxTokens * 4)
        .ok { snippet := cut, tokenCount := estimateTokens cut, truncated := true }
      else
        .ok { snippet := text, tokenCount := estimateTokens text, truncated := kept.2 }

/-- An observable effect of a pipeline component on the outside world. -/
inductive IOEvent
  | fileRead (path : String)
  | networkCall (endpoint : String)
deriving DecidableEq

/-- The world an effectful pipeline component threads through: the read-only
file system and the log of external effects performed so far. -/
structure World where
  fs : FileSystem
  events : List IOEvent
deriving DecidableEq

/-- Modelled from the spec: the extractor as an effectful step (§4.3).  Its
only effect is reading the finding's source file — it performs no network
I/O — and its result is a pure function of the file system, the finding and
the strategy. -/
def extractW (w : World) (finding : Finding) (strategy : LanguageStrategy) :
    Except ExtractionError CodeContext × World :=
  (extract w.fs finding strategy,
   { w with events := w.events ++ [.fileRead finding.filePath] })

/-- Modelled from the spec: one attempt's view of the external model (§4.5,
§6) — either a transport/rate-limit failure, or a free-text reply together
with the confidence value the untrusted service reported. -/
inductive LlmAttempt
  | transportFailure
  | reply (text : String) (rawConfidence : ℚ)
deriving DecidableEq

/-- Modelled from the spec: the three recognizable status markers a reply is
scanned for (§4.5), in scan order. -/
def statusMarkers : List (String × StatusCode) :=
  [("FALSE_POSITIVE", .FALSE_POSITIVE),
   ("NEEDS_MORE_INFO", .NEEDS_MORE_INFO),
   ("CONFIRMED", .CONFIRMED)]

/-- Modelled from the spec: parse a reply for a recognizable status marker
(§4.5); `none` is a parse failure. -/
def parseStatusMarker (text : String) : Option StatusCode :=
  (statusMarkers.find? (fun m => Frontend.strIncludes text m.1)).map Prod.snd

/-- Clamp the untrusted reported confidence into the closed interval 0–1
required of a `Verdict` (§3). -/
def clamp01 (q : ℚ) : ℚ := min 1 (max 0 q)

/-- Modelled from the spec: the fail-closed verdict (§4.5) —
`NEEDS_MORE_INFO` with confidence 0. -/
def failClosedVerdict : Verdict :=
  { statusCode := .NEEDS_MORE_INFO
    confidence := 0
    reasoning := "classification failed closed"
    suggestion := ""
    cwe := none }

/-- Modelled from the spec: the classifier's retry loop (§4.5) over the
attempts the external model would produce, bounded by the attempt ceiling.
A transport failure is retried; a reply is parsed for a status marker, a
parse failure fails closed immediately; exhausting the attempt budget fails
closed. -/
def classifyAttempts : List LlmAttempt → Nat → Verdict
  | _, 0 => failClosedVerdict
  | [], _ => failClosedVerdict
  | .transportFailure :: rest, n + 1 => classifyAttempts rest n
  | .reply text rawConfidence :: _, _ + 1 =>
    match parseStatusMarker text with
    | some sc =>
      { statusCode := sc
        confidence := clamp01 rawConfidence
        reasoning := text
        suggestion := ""
        cwe := none }
    | none => failClosedVerdict

/-- Modelled from the spec: the classifier's retry configuration (§4.5). -/
structure ClassifierConfig where
  maxAttempts : Nat
deriving DecidableEq

/-- Modelled from the spec: `classify` (§4.5) — total, so classification
never propagates an error to its caller; every failure path returns the
fail-closed verdict. -/
def classify (cfg : ClassifierConfig) (attempts : List LlmAttempt) : Verdict :=
  classifyAttempts attempts cfg.maxAttempts

/-- True of an attempt that cannot yield a parsed verdict: a transport
failure, or a reply lacking any recognizable status marker. -/
def attemptFailed : LlmAttempt → Bool
  | .transportFailure => true
  | .reply text _ => (parseStatusMarker text).isNone

/-- Modelled from the spec: a `Fingerprint` (§3) — the deterministic content
address of `(ruleId, languageStrategyVersion, normalizedCodeContext)`;
modelled as the hashed triple itself. -/
structure Fingerprint where
  ruleId : String
  strategyVersion : Nat
  normalizedContext : String
deriving DecidableEq

/-- Modelled from the spec: context normalization feeding the fingerprint —
whitespace-insensitive view of the snippet. -/
def normalizeContext (s : String) : String :=
  String.mk (s.toList.filter (fun c => !c.isWhitespace))

/-- Modelled from the spec: the fingerprint of a finding's classified
context (§3). -/
def fingerprintOf (strategy : LanguageStrategy) (ctx : CodeContext) (finding : Finding) :
    Fingerprint :=
  { ruleId := finding.ruleId
    strategyVersion := strategy.version
    normalizedContext := normalizeContext ctx.snippet }

/-- Modelled from the spec: the fingerprint cache's store (§4.4), entries
immutable once written. -/
abbrev Cache := List (Fingerprint × Verdict)

/-- Modelled from the spec: `getOrCompute(fingerprint, computeFn)` (§4.4) —
serve a hit from the cached entry, otherwise invoke `computeFn` once and
record its verdict.  The boolean reports whether `computeFn` was invoked. -/
def getOrCompute (cache : Cache) (fp : Fingerprint) (computeFn : Unit → Verdict) :
    Verdict × Cache × Bool :=
  match Frontend.alookup cache fp with
  | some v => (v, cache, false)
  | none =>
    let v := computeFn ()
    (v, (fp, v) :: cache, true)

/-- Modelled from the spec: a whole run's worth of `getOrCompute` lookups
(§4.4, §8) — process the findings in order against the cache, returning each
finding's verdict, the final cache and the log of fingerprints for which
`computeFn` was actually invoked. -/
def runCache (computeFn : Finding → Verdict) (fpOf : Finding → Fingerprint) :
    List Finding → Cache → List (Finding × Verdict) × Cache × List Fingerprint
  | [], cache => ([], cache, [])
  | f :: fs, cache =>
    let step := getOrCompute cache (fpOf f) (fun _ => computeFn f)
    let rest := runCache computeFn fpOf fs step.2.1
    ((f, step.1) :: rest.1, rest.2.1, if step.2.2 then fpOf f :: rest.2.2 else rest.2.2)

/-- Modelled from the spec: the Budget Governor (§4.6) — cumulative
consumption against a configured ceiling, with the one-way `ARMED →
TRIPPED` circuit breaker (`tripped = false` is `ARMED`). -/
structure Governor where
  ceiling : Nat
  consumed : Nat
  tripped : Bool
deriving DecidableEq

/-- Modelled from the spec: `checkAndReserve(estimatedTokens)` (§4.6) —
refuse when already tripped; trip and refuse when granting the reservation
would exceed the ceiling; otherwise commit the reservation. -/
def Governor.checkAndReserve (g : Governor) (estimatedTokens : Nat) : Bool × Governor :=
  if g.tripped then (false, g)
  else if g.ceiling < g.consumed + estimatedTokens then
    (false, { g with tripped := true })
  else
    (true, { g with consumed := g.consumed + estimatedTokens })

/-- Modelled from the spec: a classification failure kind kept in the error
taxonomy (§7); the modelled classifier fails closed, so the aggregator's
vocabulary carries it but the scheduler never emits it. -/
inductive ClassificationError
  | retriesExhausted
deriving DecidableEq

/-- Modelled from the spec: a job's terminal outcome as recorded by the
Report Aggregator (§4.8, §7) — a verdict, a per-job failure, the
unsupported-language per-finding skip (§4.2), or the budget skip (§4.6). -/
inductive Outcome
  | verdict (v : Verdict)
  | extractionError (e : ExtractionError)
  | classificationError (e : ClassificationError)
  | skippedUnsupported (e : UnsupportedLanguageError)
  | skippedBudget
deriving DecidableEq

/-- Modelled from the spec: a run's fixed environment (§4.7, §6) — the
strategy registry, the file system, the external model's behaviour on each
finding, and the classifier's retry configuration. -/
structure Env where
  registry : Registry
  fs : FileSystem
  llm : Finding → List LlmAttempt
  classifierCfg : ClassifierConfig

/-- Modelled from the spec: the mutable shared state of a run (§5) — the
fingerprint cache and the budget governor. -/
structure PipeState where
  cache : Cache
  governor : Governor

/-- Modelled from the spec: one worker iteration of the Scheduler (§4.7).
Once the governor has tripped, an undispatched job terminates as
`skippedBudget`.  Otherwise: resolve the strategy (an unresolvable language
skips only this finding), extract the context (a failure fails only this
job), compute the fingerprint, and serve from the cache — calling the
classifier only on a miss and only after the governor grants the reserved
token estimate. -/
def processOne (env : Env) (st : PipeState) (f : Finding) : Outcome × PipeState :=
  if st.governor.tripped then (.skippedBudget, st)
  else
    match resolve env.registry f.language with
    | .error e => (.skippedUnsupported e, st)
    | .ok strategy =>
      match extract env.fs f strategy with
      | .error e => (.extractionError e, st)
      | .ok ctx =>
        let fp := fingerprintOf strategy ctx f
        match Frontend.alookup st.cache fp with
        | some v => (.verdict v, st)
        | none =>
          let grant := st.governor.checkAndReserve ctx.tokenCount
          if grant.1 then
            let v := classify env.classifierCfg (env.llm f)
            (.verdict v, { cache := (fp, v) :: st.cache, governor := grant.2 })
          else
            (.skippedBudget, { st with governor := grant.2 })

/-- Modelled from the spec: the Scheduler driving every ingested finding to
a terminal outcome and the Report Aggregator collecting the
`(finding, outcome)` pairs in original ingestion order (§4.7, §4.8). -/
def runPipeline (env : Env) : List Finding → PipeState → List (Finding × Outcome) × PipeState
  | [], st => ([], st)
  | f :: fs, st =>
    let step := processOne env st f
    let rest := runPipeline env fs step.2
    ((f, step.1) :: rest.1, rest.2)

/-- A concrete finding used to exercise the pipeline model on closed
inputs. -/
def sampleFindingA : Finding :=
  { id := "a"
    language := "java"
    ruleId := "sql-injection"
    severity := "high"
    filePath := "App.java"
    startLine := 1
    endLine := 2
    pathNodes := []
    message := "tainted query" }

/-- A second finding sharing `sampleFindingA`'s rule but not its id. -/
def sampleFindingB : Finding :=
  { sampleFindingA with id := "b", message := "tainted query again" }

/-- A compute function whose verdict depends on the finding it is given,
so that deduplication through the cache is observable. -/
def sampleComputeFn (f : Finding) : Verdict :=
  { statusCode := .CONFIRMED
    confidence := 1
    reasoning := f.id
    suggestion := ""
    cwe := none }

/-- A fingerprint function identifying findings by rule alone. -/
def sampleFpOf (f : Finding) : Fingerprint :=
  { ruleId := f.ruleId, strategyVersion := 1, normalizedContext := "" }

/-- A minimal closed environment for exercising the scheduler model. -/
def sampleEnv : Env :=
  { registry := []
    fs := []
    llm := fun _ => []
    classifierCfg := { maxAttempts := 3 } }

end Pipeline

namespace Frontend

/-- The empty character list occurs in every list, as does the empty search
string in JavaScript's `includes`. -/
theorem occursIn_nil (l : List Char) : occursIn [] l = true := by
  cases l with
  | nil => rfl
  | cons b rest => simp [occursIn, leadsWith]

/-- C10: when the projects store's `deleteProject(id)` succeeds, the
resulting state contains no project with the deleted id, every project with
a different id survives unchanged and in its previous relative order, and
`currentProject` becomes `null` exactly when it was the deleted project,
staying unchanged otherwise (in particular an absent `currentProject` stays
absent). -/
theorem deleteProject_success_spec (st : ProjectsState) (id : String) :
    (∀ p ∈ (deleteProjectSuccess st id).projects, p.id ≠ id) ∧
    (∀ p, p ∈ st.projects → p.id ≠ id → p ∈ (deleteProjectSuccess st id).projects) ∧
    ((deleteProjectSuccess st id).projects.Sublist st.projects) ∧
    (∀ p, st.currentProject = some p →
      (p.id = id → (deleteProjectSuccess st id).currentProject = none) ∧
      (p.id ≠ id → (deleteProjectSuccess st id).currentProject = some p)) ∧
    (st.currentProject = none → (deleteProjectSuccess st id).currentProject = none) := by
  refine ⟨?_, ?_, ?_, ?_, ?_⟩
  · intro p hp
    simp only [deleteProjectSuccess, List.mem_filter, decide_eq_true_eq] at hp
    exact hp.2
  · intro p hp hne
    simp only [deleteProjectSuccess, List.mem_filter, decide_eq_true_eq]
    exact ⟨hp, hne⟩
  · exact List.filter_sublist _
  · intro p hp
    constructor
    · intro he
      simp [deleteProjectSuccess, hp, he]
    · intro hne
      simp [deleteProjectSuccess, hp, hne]
  · intro h
    simp [deleteProjectSuccess, h]

/-- Witness for C10: deleting the project that is currently selected clears
the selection. -/
theorem deleteProject_success_witness :
    (deleteProjectSuccess
      { projects := [sampleProject]
        currentProject := some sampleProject
        isLoading := false
        error := none } "p1").currentProject = none := by
  have h := deleteProject_success_spec
    { projects := [sampleProject]
      currentProject := some sampleProject
      isLoading := false
      error := none } "p1"
  exact (h.2.2.2.1 sampleProject rfl).1 rfl

/-- C9: `filteredVulnerabilities` is exactly the in-order subsequence of the
vulnerabilities list whose elements satisfy all four predicates at once — a
case-insensitive substring match of the search text against `ruleName`,
`filePath` or `message`, and severity, status and project each equal to the
corresponding selection or that selection being `'all'` — and with an empty
search text and all three selections `'all'` it is the whole list. -/
theorem filteredVulnerabilities_spec (vulnerabilities : List Vulnerability)
    (searchText selectedSeverity selectedStatus selectedProject : String) :
    filteredVulnerabilities vulnerabilities searchText selectedSeverity selectedStatus
        selectedProject =
      vulnerabilities.filter (fun v =>
        decide (ClaimMatches searchText selectedSeverity selectedStatus selectedProject v)) ∧
    filteredVulnerabilities vulnerabilities "" "all" "all" "all" = vulnerabilities := by
  constructor
  · unfold filteredVulnerabilities
    apply List.filter_congr
    intro v _
    simp only [matchesSearch, strIncludes, ClaimMatches]
    rw [Bool.eq_iff_iff]
    simp only [Bool.and_eq_true, Bool.or_eq_true, beq_iff_eq, decide_eq_true_eq]
    tauto
  · unfold filteredVulnerabilities
    apply List.filter_eq_self.mpr
    intro v _
    simp [matchesSearch, strIncludes, jsToLower, occursIn_nil]

/-- The fallback error text of `fetchApi`'s non-OK branch is never empty. -/
theorem httpErrorText_ne_empty (status : Nat) : httpErrorText status ≠ "" := by
  intro h
  have hlen := congrArg String.length h
  rw [httpErrorText, String.length_append] at hlen
  have h1 : ("HTTP Error: " : String).length = 12 := rfl
  have h2 : ("" : String).length = 0 := rfl
  rw [h1, h2] at hlen
  omega

/-- C8 counterexample: when the awaited `fetch` (or `response.json()`)
rejects with an `Error` whose own `message` is the empty string, `fetchApi`
returns `success: false` with `error` equal to that empty string, so the
error string is not non-empty as claimed. -/
theorem fetchApi_empty_error_counterexample :
    (fetchApi (@FetchOutcome.throwErr Unit "")).success = false ∧
    (fetchApi (@FetchOutcome.throwErr Unit "")).error = some "" := by
  exact ⟨rfl, rfl⟩

/-- C8 (amended): `fetchApi` never throws — it is a total function of the
round trip's outcome — and: a `success: true` response always carries a
`data` value and no error; a non-OK HTTP response yields `success: false`
with a non-empty error string; a thrown `Error` yields `success: false`
with the `Error`'s own message (which is empty exactly when that message
is); and a thrown non-`Error` value yields `success: false` with the
non-empty string `"Network error"`. -/
theorem fetchApi_error_as_values {α : Type} (o : FetchOutcome α) :
    ((fetchApi o).success = true →
      (∃ b, (fetchApi o).data = some b) ∧ (fetchApi o).error = none) ∧
    (∀ ok status message body, o = .respond ok status message body → ok = false →
      (fetchApi o).success = false ∧
      ∃ e, (fetchApi o).error = some e ∧ e ≠ "") ∧
    (∀ msg, o = .throwErr msg →
      (fetchApi o).success = false ∧ (fetchApi o).error = some msg) ∧
    (o = .throwOther →
      (fetchApi o).success = false ∧ (fetchApi o).error = some "Network error") := by
  refine ⟨?_, ?_, ?_, ?_⟩
  · intro hs
    cases o with
    | throwErr msg => simp [fetchApi] at hs
    | throwOther => simp [fetchApi] at hs
    | respond ok status message body =>
      cases ok with
      | true => exact ⟨⟨body, rfl⟩, rfl⟩
      | false => simp [fetchApi] at hs
  · intro ok status message body ho hok
    subst ho hok
    refine ⟨rfl, ?_⟩
    cases message with
    | none => exact ⟨httpErrorText status, rfl, httpErrorText_ne_empty status⟩
    | some m =>
      by_cases hm : m = ""
      · exact ⟨httpErrorText status, by simp [fetchApi, jsOrElse, hm], httpErrorText_ne_empty status⟩
      · exact ⟨m, by simp [fetchApi, jsOrElse, hm], hm⟩
  · intro msg ho
    subst ho
    exact ⟨rfl, rfl⟩
  · intro ho
    subst ho
    exact ⟨rfl, rfl⟩

/-- Witness for C8 (amended): a 404 whose body has no `message` produces
`success: false` with the non-empty fallback error string. -/
theorem fetchApi_error_as_values_witness :
    (fetchApi (FetchOutcome.respond false 404 none ())).success = false ∧
    ∃ e, (fetchApi (FetchOutcome.respond false 404 none ())).error = some e ∧ e ≠ "" := by
  have h := fetchApi_error_as_values (FetchOutcome.respond false 404 none ())
  exact h.2.1 false 404 none () rfl rfl

end Frontend

namespace Pipeline

/-- The clamped confidence is nonnegative. -/
theorem clamp01_nonneg (q : ℚ) : 0 ≤ clamp01 q :=
  le_min (by norm_num) (le_max_left 0 q)

/-- The clamped confidence is at most one. -/
theorem clamp01_le_one (q : ℚ) : clamp01 q ≤ 1 :=
  min_le_left 1 _

/-- Every verdict the retry loop can produce has its confidence in the
closed interval 0–1. -/
theorem classifyAttempts_confidence_bounds (attempts : List LlmAttempt) :
    ∀ n : Nat, 0 ≤ (classifyAttempts attempts n).confidence ∧
      (classifyAttempts attempts n).confidence ≤ 1 := by
  induction attempts with
  | nil =>
    intro n
    cases n <;> simp [classifyAttempts, failClosedVerdict]
  | cons a rest ih =>
    intro n
    cases n with
    | zero => simp [classifyAttempts, failClosedVerdict]
    | succ m =>
      cases a with
      | transportFailure => simpa [classifyAttempts] using ih m
      | reply text rawConfidence =>
        simp only [classifyAttempts]
        cases h : parseStatusMarker text with
        | none => simp [failClosedVerdict]
        | some sc => simp [clamp01_nonneg, clamp01_le_one]

/-- C1: a status code is exactly one of `CONFIRMED`, `FALSE_POSITIVE` or
`NEEDS_MORE_INFO` — the verdict type admits no other status — every verdict
the classifier produces has its confidence in the closed interval 0–1, and
the checked sources' only verdict-like type, `LlmAnalysis`, carries the
boolean `isVulnerability` instead of a three-valued status. -/
theorem verdict_status_three_valued :
    (∀ s : StatusCode,
      s = .CONFIRMED ∨ s = .FALSE_POSITIVE ∨ s = .NEEDS_MORE_INFO) ∧
    (∀ (cfg : ClassifierConfig) (attempts : List LlmAttempt),
      0 ≤ (classify cfg attempts).confidence ∧ (classify cfg attempts).confidence ≤ 1) ∧
    (∀ a : Frontend.LlmAnalysis, a.isVulnerability = true ∨ a.isVulnerability = false) := by
  refine ⟨?_, ?_, ?_⟩
  · intro s
    cases s with
    | CONFIRMED => exact Or.inl rfl
    | FALSE_POSITIVE => exact Or.inr (Or.inl rfl)
    | NEEDS_MORE_INFO => exact Or.inr (Or.inr rfl)
  · intro cfg attempts
    exact classifyAttempts_confidence_bounds attempts cfg.maxAttempts
  · intro a
    cases h : a.isVulnerability
    · exact Or.inr rfl
    · exact Or.inl rfl

/-- When every attempt fails — a transport failure or a reply with no
recognizable status marker — the retry loop returns the fail-closed
verdict whatever the attempt budget. -/
theorem classifyAttempts_all_failed (attempts : List LlmAttempt) :
    ∀ n : Nat, attempts.all attemptFailed = true →
      classifyAttempts attempts n = failClosedVerdict := by
  induction attempts with
  | nil =>
    intro n _
    cases n <;> rfl
  | cons a rest ih =>
    intro n h
    simp only [List.all_cons, Bool.and_eq_true] at h
    cases n with
    | zero => cases a <;> rfl
    | succ m =>
      cases a with
      | transportFailure =>
        simpa [classifyAttempts] using ih m h.2
      | reply text rawConfidence =>
        have hp : parseStatusMarker text = none := by
          simpa [attemptFailed, Option.isNone_iff_eq_none] using h.1
        simp [classifyAttempts, hp]

/-- C4: whenever the external model's responses lack a recognizable status
marker or all configured retries are exhausted on transport failures,
`classify` — a total function, so no error ever propagates to its caller —
returns the fail-closed verdict: `NEEDS_MORE_INFO` with confidence 0. -/
theorem classify_fails_closed (cfg : ClassifierConfig) (attempts : List LlmAttempt)
    (h : attempts.all attemptFailed = true) :
    (classify cfg attempts).statusCode = .NEEDS_MORE_INFO ∧
    (classify cfg attempts).confidence = 0 := by
  have he : classify cfg attempts = failClosedVerdict :=
    classifyAttempts_all_failed attempts cfg.maxAttempts h
  rw [he]
  exact ⟨rfl, rfl⟩

/-- Witness for C4: a transport failure followed by an unparseable reply
fails closed under a three-attempt budget. -/
theorem classify_fails_closed_witness :
    ([LlmAttempt.transportFailure, LlmAttempt.reply "the model rambles" 2].all
        attemptFailed = true) ∧
    (classify { maxAttempts := 3 }
        [LlmAttempt.transportFailure, LlmAttempt.reply "the model rambles" 2]).statusCode =
      .NEEDS_MORE_INFO ∧
    (classify { maxAttempts := 3 }
        [LlmAttempt.transportFailure, LlmAttempt.reply "the model rambles" 2]).confidence = 0 := by
  refine ⟨by decide, ?_⟩
  exact classify_fails_closed { maxAttempts := 3 }
    [LlmAttempt.transportFailure, LlmAttempt.reply "the model rambles" 2] (by decide)

/-- Cache entries are immutable and never evicted within a run: a binding
present before a run of lookups is still present, unchanged, afterwards. -/
theorem runCache_cache_mono (computeFn : Finding → Verdict) (fpOf : Finding → Fingerprint) :
    ∀ (findings : List Finding) (cache : Cache) (fp : Fingerprint) (v : Verdict),
      Frontend.alookup cache fp = some v →
      Frontend.alookup (runCache computeFn fpOf findings cache).2.1 fp = some v := by
  intro findings
  induction findings with
  | nil =>
    intro cache fp v h
    simpa [runCache] using h
  | cons f rest ih =>
    intro cache fp v h
    simp only [runCache, getOrCompute]
    cases hl : Frontend.alookup cache (fpOf f) with
    | some w =>
      simp only [hl]
      exact ih cache fp v h
    | none =>
      simp only [hl]
      apply ih
      have hne : fpOf f ≠ fp := by
        intro he
        rw [he, h] at hl
        exact Option.noConfusion hl
      simpa [Frontend.alookup, hne] using h

/-- Every `(finding, verdict)` pair a run of lookups emits agrees with the
final cache's entry at that finding's fingerprint. -/
theorem runCache_result_lookup (computeFn : Finding → Verdict) (fpOf : Finding → Fingerprint) :
    ∀ (findings : List Finding) (cache : Cache) (f : Finding) (v : Verdict),
      (f, v) ∈ (runCache computeFn fpOf findings cache).1 →
      Frontend.alookup (runCache computeFn fpOf findings cache).2.1 (fpOf f) = some v := by
  intro findings
  induction findings with
  | nil =>
    intro cache f v h
    simp [runCache] at h
  | cons g rest ih =>
    intro cache f v h
    simp only [runCache, getOrCompute] at h ⊢
    cases hl : Frontend.alookup cache (fpOf g) with
    | some w =>
      simp only [hl] at h ⊢
      rcases List.mem_cons.mp h with hhead | htail
      · have hf : f = g ∧ v = w := by
          constructor
          · exact congrArg Prod.fst hhead
          · exact congrArg Prod.snd hhead
        rcases hf with ⟨hf1, hf2⟩
        subst hf1 hf2
        exact runCache_cache_mono computeFn fpOf rest cache (fpOf f) v hl
      · exact ih cache f v htail
    | none =>
      simp only [hl] at h ⊢
      rcases List.mem_cons.mp h with hhead | htail
      · have hf : f = g ∧ v = computeFn g := by
          constructor
          · exact congrArg Prod.fst hhead
          · exact congrArg Prod.snd hhead
        rcases hf with ⟨hf1, hf2⟩
        subst hf1 hf2
        apply runCache_cache_mono computeFn fpOf rest
        simp [Frontend.alookup]
      · exact ih _ f v htail

/-- Every fingerprint the run logs as computed was absent from the cache the
run started with, and no fingerprint is logged twice: `computeFn` runs at
most once per fingerprint. -/
theorem runCache_log_fresh_nodup (computeFn : Finding → Verdict) (fpOf : Finding → Fingerprint) :
    ∀ (findings : List Finding) (cache : Cache),
      (∀ fp ∈ (runCache computeFn fpOf findings cache).2.2,
        Frontend.alookup cache fp = none) ∧
      (runCache computeFn fpOf findings cache).2.2.Nodup := by
  intro findings
  induction findings with
  | nil =>
    intro cache
    simp [runCache]
  | cons g rest ih =>
    intro cache
    simp only [runCache, getOrCompute]
    cases hl : Frontend.alookup cache (fpOf g) with
    | some w =>
      simp only [hl]
      exact ih cache
    | none =>
      simp only [hl, eq_self_iff_true, if_true]
      have hrest := ih ((fpOf g, computeFn g) :: cache)
      have hmem : ∀ fp ∈ (runCache computeFn fpOf rest ((fpOf g, computeFn g) :: cache)).2.2,
          fpOf g ≠ fp ∧ Frontend.alookup cache fp = none := by
        intro fp hfp
        have := hrest.1 fp hfp
        by_cases he : fpOf g = fp
        · rw [Frontend.alookup, if_pos he] at this
          exact Option.noConfusion this
        · rw [Frontend.alookup, if_neg he] at this
          exact ⟨he, this⟩
      constructor
      · intro fp hfp
        rcases List.mem_cons.mp hfp with hh | ht
        · rw [hh]
          exact hl
        · exact (hmem fp ht).2
      · refine List.nodup_cons.mpr ⟨?_, hrest.2⟩
        intro hmem2
        exact (hmem (fpOf g) hmem2).1 rfl

/-- C2: across a whole run of `getOrCompute` lookups the compute function is
invoked at most once per fingerprint — later lookups of an already-computed
fingerprint are served from the cached entry — and any two findings with
identical fingerprints receive identical verdicts. -/
theorem cache_dedup_single_classification (computeFn : Finding → Verdict)
    (fpOf : Finding → Fingerprint) (findings : List Finding) :
    (∀ fp : Fingerprint, ((runCache computeFn fpOf findings []).2.2).count fp ≤ 1) ∧
    (∀ (f g : Finding) (vf vg : Verdict),
      (f, vf) ∈ (runCache computeFn fpOf findings []).1 →
      (g, vg) ∈ (runCache computeFn fpOf findings []).1 →
      fpOf f = fpOf g → vf = vg) := by
  constructor
  · intro fp
    exact List.nodup_iff_count_le_one.mp
      ((runCache_log_fresh_nodup computeFn fpOf findings []).2) fp
  · intro f g vf vg hf hg hfp
    have h1 := runCache_result_lookup computeFn fpOf findings [] f vf hf
    have h2 := runCache_result_lookup computeFn fpOf findings [] g vg hg
    rw [hfp] at h1
    rw [h1] at h2
    exact Option.some.inj h2

/-- Witness for C2: two findings sharing the `sql-injection` fingerprint
produce one logged computation and identical verdicts. -/
theorem cache_dedup_single_classification_witness :
    ((runCache sampleComputeFn sampleFpOf [sampleFindingA, sampleFindingB] []).2.2).count
      (sampleFpOf sampleFindingA) ≤ 1 ∧
    sampleComputeFn sampleFindingA = sampleComputeFn sampleFindingA := by
  have h := cache_dedup_single_classification sampleComputeFn sampleFpOf
    [sampleFindingA, sampleFindingB]
  refine ⟨h.1 (sampleFpOf sampleFindingA), ?_⟩
  exact h.2 sampleFindingA sampleFindingB (sampleComputeFn sampleFindingA)
    (sampleComputeFn sampleFindingA) (by decide) (by decide) (by decide)

/-- A tripped governor vetoes dispatch: the scheduler step leaves the state
untouched and terminates the job as `skippedBudget`. -/
theorem processOne_tripped (env : Env) (st : PipeState) (f : Finding)
    (h : st.governor.tripped = true) :
    processOne env st f = (.skippedBudget, st) := by
  simp [processOne, h]

/-- The aggregator's report lists exactly the ingested findings, in the
original ingestion order, whatever the run's environment and state. -/
theorem runPipeline_map_fst (env : Env) :
    ∀ (findings : List Finding) (st : PipeState),
      ((runPipeline env findings st).1).map Prod.fst = findings := by
  intro findings
  induction findings with
  | nil =>
    intro st
    rfl
  | cons f rest ih =>
    intro st
    simp only [runPipeline, List.map_cons]
    exact congrArg (f :: ·) (ih _)

/-- From a tripped state, every remaining job terminates as
`skippedBudget`. -/
theorem runPipeline_tripped (env : Env) :
    ∀ (findings : List Finding) (st : PipeState), st.governor.tripped = true →
      ∀ p ∈ (runPipeline env findings st).1, p.2 = Outcome.skippedBudget := by
  intro findings
  induction findings with
  | nil =>
    intro st _ p hp
    simp [runPipeline] at hp
  | cons f rest ih =>
    intro st h p hp
    simp only [runPipeline, processOne_tripped env st f h] at hp
    rcases List.mem_cons.mp hp with hh | ht
    · rw [hh]
    · exact ih st h p ht

/-- C3: the budget governor is one-way — once tripped it stays tripped and
refuses every reservation — `checkAndReserve` answers false whenever
granting the reservation would push cumulative consumption past the
ceiling, and from the moment of the trip every job not yet dispatched
terminates in the `skippedBudget` state. -/
theorem governor_one_way_trip :
    (∀ (g : Governor) (est : Nat), g.tripped = true →
      (g.checkAndReserve est).2.tripped = true ∧ (g.checkAndReserve est).1 = false) ∧
    (∀ (g : Governor) (est : Nat), g.ceiling < g.consumed + est →
      (g.checkAndReserve est).1 = false) ∧
    (∀ (env : Env) (st : PipeState) (f : Finding), st.governor.tripped = true →
      (processOne env st f).2.governor.tripped = true) ∧
    (∀ (env : Env) (findings : List Finding) (st : PipeState),
      st.governor.tripped = true →
      ∀ p ∈ (runPipeline env findings st).1, p.2 = Outcome.skippedBudget) := by
  refine ⟨?_, ?_, ?_, ?_⟩
  · intro g est h
    simp [Governor.checkAndReserve, h]
  · intro g est h
    by_cases ht : g.tripped = true
    · simp [Governor.checkAndReserve, ht]
    · simp only [Bool.not_eq_true] at ht
      simp [Governor.checkAndReserve, ht, h]
  · intro env st f h
    rw [processOne_tripped env st f h]
    exact h
  · exact fun env findings st h => runPipeline_tripped env findings st h

/-- Witness for C3: with four of five tokens spent, a three-token
reservation is refused, and from a tripped state a pending finding is
reported `skippedBudget`. -/
theorem governor_one_way_trip_witness :
    (Governor.checkAndReserve { ceiling := 5, consumed := 4, tripped := false } 3).1 = false ∧
    (sampleFindingA, Outcome.skippedBudget) ∈
      (runPipeline sampleEnv [sampleFindingA]
        { cache := [], governor := { ceiling := 5, consumed := 5, tripped := true } }).1 ∧
    ((sampleFindingA, Outcome.skippedBudget) : Finding × Outcome).2 = Outcome.skippedBudget := by
  have h := governor_one_way_trip
  refine ⟨h.2.1 { ceiling := 5, consumed := 4, tripped := false } 3 (by norm_num), ?_, ?_⟩
  · decide
  · exact h.2.2.2 sampleEnv [sampleFindingA]
      { cache := [], governor := { ceiling := 5, consumed := 5, tripped := true } } rfl
      (sampleFindingA, Outcome.skippedBudget) (by decide)

/-- C5: for every run — the tripped-budget runs included, since the state is
arbitrary — the aggregator's report pairs every ingested finding exactly
once with a terminal outcome, in the original ingestion order. -/
theorem report_complete_and_ordered (env : Env) (findings : List Finding) (st : PipeState) :
    ((runPipeline env findings st).1).map Prod.fst = findings ∧
    (∀ p ∈ (runPipeline env findings st).1,
      (∃ v, p.2 = Outcome.verdict v) ∨
      (∃ e, p.2 = Outcome.extractionError e) ∨
      (∃ e, p.2 = Outcome.classificationError e) ∨
      (∃ e, p.2 = Outcome.skippedUnsupported e) ∨
      p.2 = Outcome.skippedBudget) := by
  refine ⟨runPipeline_map_fst env findings st, ?_⟩
  intro p _
  cases h : p.2 with
  | verdict v => exact Or.inl ⟨v, rfl⟩
  | extractionError e => exact Or.inr (Or.inl ⟨e, rfl⟩)
  | classificationError e => exact Or.inr (Or.inr (Or.inl ⟨e, rfl⟩))
  | skippedUnsupported e => exact Or.inr (Or.inr (Or.inr (Or.inl ⟨e, rfl⟩)))
  | skippedBudget => exact Or.inr (Or.inr (Or.inr (Or.inr rfl)))

/-- Witness for C5: a two-finding run under an empty registry reports both
findings, in order, each with a terminal outcome. -/
theorem report_complete_and_ordered_witness :
    ((runPipeline sampleEnv [sampleFindingA, sampleFindingB]
        { cache := [], governor := { ceiling := 5, consumed := 0, tripped := false } }).1).map
      Prod.fst = [sampleFindingA, sampleFindingB] ∧
    ((∃ v, (Outcome.skippedUnsupported (.unsupported "java") : Outcome) = Outcome.verdict v) ∨
      (∃ e, (Outcome.skippedUnsupported (.unsupported "java") : Outcome) =
        Outcome.extractionError e) ∨
      (∃ e, (Outcome.skippedUnsupported (.unsupported "java") : Outcome) =
        Outcome.classificationError e) ∨
      (∃ e, (Outcome.skippedUnsupported (.unsupported "java") : Outcome) =
        Outcome.skippedUnsupported e) ∨
      (Outcome.skippedUnsupported (.unsupported "java") : Outcome) = Outcome.skippedBudget) := by
  have h := report_complete_and_ordered sampleEnv [sampleFindingA, sampleFindingB]
    { cache := [], governor := { ceiling := 5, consumed := 0, tripped := false } }
  refine ⟨h.1, ?_⟩
  have hm := h.2 (sampleFindingA, Outcome.skippedUnsupported (.unsupported "java")) (by decide)
  exact hm

/-- C6: `resolve` fails with `UnsupportedLanguageError` exactly when no
strategy is registered for the language; the scheduler turns that failure
into a skip of the individual finding, leaving the run's state untouched,
and the pipeline never aborts — its report still enumerates every ingested
finding. -/
theorem resolve_unsupported_skips_finding :
    (∀ (registry : Registry) (language : String),
      Frontend.alookup registry language = none →
      resolve registry language = .error (.unsupported language)) ∧
    (∀ (env : Env) (st : PipeState) (f : Finding), st.governor.tripped = false →
      Frontend.alookup env.registry f.language = none →
      processOne env st f = (.skippedUnsupported (.unsupported f.language), st)) ∧
    (∀ (env : Env) (findings : List Finding) (st : PipeState),
      ((runPipeline env findings st).1).map Prod.fst = findings) := by
  refine ⟨?_, ?_, ?_⟩
  · intro registry language h
    simp [resolve, h]
  · intro env st f ht hr
    simp [processOne, ht, resolve, hr]
  · exact fun env findings st => runPipeline_map_fst env findings st

/-- Witness for C6: under the empty registry a Java finding is skipped as
unsupported while the run's report still lists it. -/
theorem resolve_unsupported_skips_finding_witness :
    resolve [] "java" = .error (.unsupported "java") ∧
    processOne sampleEnv { cache := [], governor := { ceiling := 5, consumed := 0, tripped := false } }
        sampleFindingA =
      (.skippedUnsupported (.unsupported "java"),
        { cache := [], governor := { ceiling := 5, consumed := 0, tripped := false } }) ∧
    ((runPipeline sampleEnv [sampleFindingA]
        { cache := [], governor := { ceiling := 5, consumed := 0, tripped := false } }).1).map
      Prod.fst = [sampleFindingA] := by
  have h := resolve_unsupported_skips_finding
  refine ⟨h.1 [] "java" rfl, ?_, ?_⟩
  · exact h.2.1 sampleEnv
      { cache := [], governor := { ceiling := 5, consumed := 0, tripped := false } }
      sampleFindingA rfl rfl
  · exact h.2.2 sampleEnv [sampleFindingA]
      { cache := [], governor := { ceiling := 5, consumed := 0, tripped := false } }

/-- C7: the context extractor is deterministic and idempotent — running it a
second time on the same `(finding, strategy)` pair returns a byte-identical
result — it leaves the file system untouched, and the only effects it adds
to the world's log are reads of the finding's file: no network I/O. -/
theorem extractor_idempotent_no_network (w : World) (f : Finding) (strategy : LanguageStrategy) :
    (extractW w f strategy).1 = (extractW (extractW w f strategy).2 f strategy).1 ∧
    ((extractW (extractW w f strategy).2 f strategy).2).fs = w.fs ∧
    ((extractW (extractW w f strategy).2 f strategy).2).events =
      w.events ++ [.fileRead f.filePath, .fileRead f.filePath] := by
  refine ⟨rfl, rfl, ?_⟩
  simp [extractW]

end Pipeline
